import Mathlib

/-!
Verification of the EmpowerMS risk and smoking-cessation-benefit calculator
(src/Wigley_EmpowerMS.py) against its specification.

The computational core of the repository is two pure functions over a Python
dict mapping covariate names (strings) to numbers:

  calculate_risk (lines 33-42): starts from the Intercept coefficient, adds
  coefficient * value for each key present in the input dict, exponentiates,
  and returns 1 - odds / (1 + odds).

  calculate_smoking_cessation_benefit (lines 45-57): evaluates the risk on
  the given inputs and on a copy with the keys "Current Smoker" and
  "BpwMS * Current Smoker" set to 0, and returns the triple
  (relative risk reduction * 100, current risk * 100, no-smoking risk * 100).

Embedding choices: a Python dict with string keys and unique entries is
embedded as an association list with first-match lookup; Python dict item
assignment (replace in place when the key exists, append otherwise) is the
function setKey below.  The log-odds accumulation is exact rational
arithmetic; the exponential and the final probabilities live in the real
numbers.  A lookup of a key that the coefficient table does not contain is a
Python KeyError; it is embedded as the none case of an Option, so
calculate_risk has type Option before the real-valued payload.
-/

/-- Dict lookup, first match wins (Python dict keys are unique). -/
def dictGet (k : String) : List (String × ℚ) → Option ℚ
  | [] => none
  | (k2, v) :: rest => if k = k2 then some v else dictGet k rest

/-- Python dict item assignment: replace the value in place when the key is
present, append the pair at the end otherwise. -/
def setKey (l : List (String × ℚ)) (k : String) (v : ℚ) : List (String × ℚ) :=
  match l with
  | [] => [(k, v)]
  | (k2, v2) :: rest => if k = k2 then (k, v) :: rest else (k2, v2) :: setKey rest k v

/-- The fixed coefficient table of the logistic regression model
(src/Wigley_EmpowerMS.py lines 20-30). -/
def log_odds_coefficients : List (String × ℚ) :=
  [("Intercept", 0.488),
   ("BpwMS", 4.8613),
   ("Current Smoker", 16.8601),
   ("BpwMS * Current Smoker", -18.5033),
   ("Pack-Years", 0.1531),
   ("BpwMS * Pack-Years", -0.496),
   ("Age at Baseline", 0.0056),
   ("Sex (Male)", -2.2452),
   ("Follow-up Interval", 0.3507)]

/-- The loop of calculate_risk: for key in inputs, add
log_odds_coefficients[key] * inputs[key] to the accumulator; a key absent
from the coefficient table is a KeyError (none). -/
def sumTerms : List (String × ℚ) → ℚ → Option ℚ
  | [], acc => some acc
  | (k, v) :: rest, acc =>
    match dictGet k log_odds_coefficients with
    | none => none
    | some c => sumTerms rest (acc + c * v)

/-- The log-odds accumulation of calculate_risk (lines 34-37): start from the
Intercept coefficient and loop over the keys of the input dict. -/
def calculateLogOdds (inputs : List (String × ℚ)) : Option ℚ :=
  match dictGet "Intercept" log_odds_coefficients with
  | none => none
  | some c0 => sumTerms inputs c0

/-- calculate_risk (src/Wigley_EmpowerMS.py lines 33-42):
odds = exp(log_odds), probability = odds / (1 + odds),
risk_of_worsening = 1 - probability. -/
noncomputable def calculate_risk (inputs : List (String × ℚ)) : Option ℝ :=
  (calculateLogOdds inputs).map (fun (log_odds : ℚ) =>
    let odds := Real.exp (log_odds : ℝ)
    let probability := odds / (1 + odds)
    1 - probability)

/-- The counterfactual covariate set built inside
calculate_smoking_cessation_benefit (lines 50-52): a copy of the inputs with
"Current Smoker" and "BpwMS * Current Smoker" set to 0. -/
def inputs_no_smoking (inputs : List (String × ℚ)) : List (String × ℚ) :=
  setKey (setKey inputs "Current Smoker" 0) "BpwMS * Current Smoker" 0

/-- calculate_smoking_cessation_benefit (src/Wigley_EmpowerMS.py lines
45-57): current risk, risk with smoking zeroed out, relative risk
reduction, all scaled to percentages. -/
noncomputable def calculate_smoking_cessation_benefit
    (inputs : List (String × ℚ)) : Option (ℝ × ℝ × ℝ) :=
  (calculate_risk inputs).bind (fun current_risk =>
    (calculate_risk ( inputs_no_smoking inputs)).map (fun risk_no_smoking =>
      let relative_risk_reduction := (current_risk - risk_no_smoking) / current_risk
      (relative_risk_reduction * 100, current_risk * 100, risk_no_smoking * 100)))

/-- The covariate dict exactly as the UI layer builds it
(src/Wigley_EmpowerMS.py lines 72-81): all eight named covariates, in the
order of construction. -/
def mkInputs (bpwms current_smoker bpwms_cs pack_years bpwms_py age sex fui : ℚ) :
    List (String × ℚ) :=
  [("BpwMS", bpwms),
   ("Current Smoker", current_smoker),
   ("BpwMS * Current Smoker", bpwms_cs),
   ("Pack-Years", pack_years),
   ("BpwMS * Pack-Years", bpwms_py),
   ("Age at Baseline", age),
   ("Sex (Male)", sex),
   ("Follow-up Interval", fui)]

/-- The linear predictor of the model on a full covariate set, written as the
accumulation order of the loop produces it. -/
def linPred (bpwms current_smoker bpwms_cs pack_years bpwms_py age sex fui : ℚ) : ℚ :=
  0.488 + 4.8613 * bpwms + 16.8601 * current_smoker + -18.5033 * bpwms_cs
    + 0.1531 * pack_years + -0.496 * bpwms_py + 0.0056 * age
    + -2.2452 * sex + 0.3507 * fui

/-- The logistic risk map on the real line: the value calculate_risk computes
from a log-odds value. -/
noncomputable def riskOf (L : ℝ) : ℝ := 1 - Real.exp L / (1 + Real.exp L)

lemma logOdds_mkInputs (b cs bcs py bpy a s f : ℚ) :
    calculateLogOdds (mkInputs b cs bcs py bpy a s f) =
      some (linPred b cs bcs py bpy a s f) := by
  show some (((((((((0.488 : ℚ) + 4.8613 * b) + 16.8601 * cs) + -18.5033 * bcs)
      + 0.1531 * py) + -0.496 * bpy) + 0.0056 * a) + -2.2452 * s) + 0.3507 * f)
    = some (linPred b cs bcs py bpy a s f)
  rw [linPred]

lemma risk_mkInputs (b cs bcs py bpy a s f : ℚ) :
    calculate_risk (mkInputs b cs bcs py bpy a s f) =
      some (riskOf ((linPred b cs bcs py bpy a s f : ℚ) : ℝ)) := by
  rw [calculate_risk, logOdds_mkInputs]
  rfl

lemma one_add_exp_pos (L : ℝ) : 0 < 1 + Real.exp L := by
  have := Real.exp_pos L
  linarith

lemma riskOf_eq_one_div (L : ℝ) : riskOf L = 1 / (1 + Real.exp L) := by
  rw [riskOf]
  have h := one_add_exp_pos L
  field_simp

lemma riskOf_pos (L : ℝ) : 0 < riskOf L := by
  rw [riskOf_eq_one_div]
  exact div_pos one_pos (one_add_exp_pos L)

lemma riskOf_lt_one (L : ℝ) : riskOf L < 1 := by
  rw [riskOf_eq_one_div, div_lt_one (one_add_exp_pos L)]
  linarith [Real.exp_pos L]

lemma riskOf_anti {L1 L2 : ℝ} (h : L1 ≤ L2) : riskOf L2 ≤ riskOf L1 := by
  rw [riskOf_eq_one_div, riskOf_eq_one_div]
  apply one_div_le_one_div_of_le (one_add_exp_pos L1)
  have := Real.exp_le_exp.mpr h
  linarith

lemma no_smoking_mkInputs (b cs bcs py bpy a s f : ℚ) :
    inputs_no_smoking (mkInputs b cs bcs py bpy a s f) = mkInputs b 0 0 py bpy a s f := rfl

lemma benefit_mkInputs (b cs bcs py bpy a s f : ℚ) :
    calculate_smoking_cessation_benefit (mkInputs b cs bcs py bpy a s f) =
      some (((riskOf ((linPred b cs bcs py bpy a s f : ℚ) : ℝ)
                - riskOf ((linPred b 0 0 py bpy a s f : ℚ) : ℝ))
              / riskOf ((linPred b cs bcs py bpy a s f : ℚ) : ℝ)) * 100,
            riskOf ((linPred b cs bcs py bpy a s f : ℚ) : ℝ) * 100,
            riskOf ((linPred b 0 0 py bpy a s f : ℚ) : ℝ) * 100) := by
  rw [calculate_smoking_cessation_benefit, no_smoking_mkInputs, risk_mkInputs, risk_mkInputs]
  rfl

lemma cast_linPred (b cs bcs py bpy a s f : ℚ) :
    ((linPred b cs bcs py bpy a s f : ℚ) : ℝ) =
      0.488 + 4.8613 * (b : ℝ) + 16.8601 * (cs : ℝ) + -18.5033 * (bcs : ℝ)
        + 0.1531 * (py : ℝ) + -0.496 * (bpy : ℝ) + 0.0056 * (a : ℝ)
        + -2.2452 * (s : ℝ) + 0.3507 * (f : ℝ) := by
  rw [linPred]
  push_cast
  norm_num

lemma dictGet_setKey_same (l : List (String × ℚ)) (k : String) (v : ℚ) :
    dictGet k (setKey l k v) = some v := by
  induction l with
  | nil => simp [setKey, dictGet]
  | cons p rest ih =>
    obtain ⟨k2, v2⟩ := p
    by_cases h : k = k2
    · simp [setKey, dictGet, h]
    · simp [setKey, dictGet, h, ih]

lemma dictGet_setKey_other (l : List (String × ℚ)) (k k0 : String) (v : ℚ)
    (h : k ≠ k0) : dictGet k (setKey l k0 v) = dictGet k l := by
  induction l with
  | nil => simp [setKey, dictGet, h]
  | cons p rest ih =>
    obtain ⟨k2, v2⟩ := p
    by_cases h2 : k0 = k2
    · subst h2
      simp [setKey, dictGet, h]
    · by_cases h3 : k = k2
      · simp [setKey, dictGet, h2, h3]
      · simp [setKey, dictGet, h2, h3, ih]

/-- Claim C1: on a covariate dict holding exactly the eight named covariates,
calculate_risk returns 1 - odds / (1 + odds) where odds = exp(logOdds) and
logOdds is the Intercept plus the coefficient-weighted sum of the eight
covariate values, with the fixed coefficients of the model. -/
theorem C1_risk_closed_form (b cs bcs py bpy a s f : ℚ) :
    calculate_risk (mkInputs b cs bcs py bpy a s f) =
      some (1 -
        Real.exp (0.488 + 4.8613 * (b : ℝ) + 16.8601 * (cs : ℝ) + -18.5033 * (bcs : ℝ)
            + 0.1531 * (py : ℝ) + -0.496 * (bpy : ℝ) + 0.0056 * (a : ℝ)
            + -2.2452 * (s : ℝ) + 0.3507 * (f : ℝ)) /
        (1 + Real.exp (0.488 + 4.8613 * (b : ℝ) + 16.8601 * (cs : ℝ) + -18.5033 * (bcs : ℝ)
            + 0.1531 * (py : ℝ) + -0.496 * (bpy : ℝ) + 0.0056 * (a : ℝ)
            + -2.2452 * (s : ℝ) + 0.3507 * (f : ℝ)))) := by
  rw [risk_mkInputs]
  simp only [riskOf]
  rw [cast_linPred]

/-- Claim C2: calculate_smoking_cessation_benefit returns the triple
(relativeRiskReduction * 100, currentRisk * 100, riskNoSmoking * 100), where
currentRisk is calculate_risk of the inputs, riskNoSmoking is calculate_risk
of the inputs with Current Smoker and BpwMS * Current Smoker set to 0, and
relativeRiskReduction = (currentRisk - riskNoSmoking) / currentRisk. -/
theorem C2_benefit_triple (b cs bcs py bpy a s f : ℚ) :
    ∃ cur ns : ℝ,
      calculate_risk (mkInputs b cs bcs py bpy a s f) = some cur ∧
      calculate_risk (mkInputs b 0 0 py bpy a s f) = some ns ∧
      calculate_smoking_cessation_benefit (mkInputs b cs bcs py bpy a s f) =
        some ((cur - ns) / cur * 100, cur * 100, ns * 100) :=
  ⟨_, _, risk_mkInputs b cs bcs py bpy a s f, risk_mkInputs b 0 0 py bpy a s f,
    benefit_mkInputs b cs bcs py bpy a s f⟩

/-- Claim C5: the counterfactual dict built inside
calculate_smoking_cessation_benefit maps Current Smoker and
BpwMS * Current Smoker to 0 and agrees with the caller-supplied dict on
every other key; the embedding is a pure function of the input (the source
works on a copy of the dict), so the input itself is untouched. -/
theorem C5_counterfactual_frame (inputs : List (String × ℚ)) (k : String)
    (h1 : k ≠ "Current Smoker") (h2 : k ≠ "BpwMS * Current Smoker") :
    dictGet k (inputs_no_smoking inputs) = dictGet k inputs ∧
    dictGet "Current Smoker" (inputs_no_smoking inputs) = some 0 ∧
    dictGet "BpwMS * Current Smoker" (inputs_no_smoking inputs) = some 0 := by
  refine ⟨?_, ?_, ?_⟩
  · rw [inputs_no_smoking, dictGet_setKey_other _ _ _ _ h2, dictGet_setKey_other _ _ _ _ h1]
  · rw [inputs_no_smoking, dictGet_setKey_other _ _ _ _ (by decide), dictGet_setKey_same]
  · rw [inputs_no_smoking, dictGet_setKey_same]

/-- Witness for C5 at a concrete dict and the key Pack-Years. -/
theorem C5_counterfactual_frame_witness :
    (("Pack-Years" : String) ≠ "Current Smoker") ∧
    (("Pack-Years" : String) ≠ "BpwMS * Current Smoker") ∧
    (dictGet "Pack-Years" (inputs_no_smoking (mkInputs 1 1 1 2.5 2.5 30 0 1)) =
        dictGet "Pack-Years" (mkInputs 1 1 1 2.5 2.5 30 0 1) ∧
      dictGet "Current Smoker" (inputs_no_smoking (mkInputs 1 1 1 2.5 2.5 30 0 1)) = some 0 ∧
      dictGet "BpwMS * Current Smoker" (inputs_no_smoking (mkInputs 1 1 1 2.5 2.5 30 0 1)) =
        some 0) :=
  ⟨by decide, by decide,
    C5_counterfactual_frame (mkInputs 1 1 1 2.5 2.5 30 0 1) "Pack-Years"
      (by decide) (by decide)⟩

/-- Claim C6: for all covariate values in their stated domains (indicator
covariates in 0 or 1, the others nonnegative), calculate_risk succeeds and
returns a value in the closed interval from 0 to 1; in exact real arithmetic
the exponential never overflows. -/
theorem C6_risk_in_unit_interval (b cs bcs py bpy a s f : ℚ)
    (hb : b = 0 ∨ b = 1) (hcs : cs = 0 ∨ cs = 1) (hbcs : bcs = 0 ∨ bcs = 1)
    (hpy : 0 ≤ py) (hbpy : 0 ≤ bpy) (ha : 0 ≤ a) (hs : s = 0 ∨ s = 1) (hf : 0 ≤ f) :
    ∃ r : ℝ, calculate_risk (mkInputs b cs bcs py bpy a s f) = some r ∧ 0 ≤ r ∧ r ≤ 1 :=
  ⟨_, risk_mkInputs b cs bcs py bpy a s f, (riskOf_pos _).le, (riskOf_lt_one _).le⟩

/-- A covariate dict from which the required key "Follow-up Interval" is
absent: the other seven covariates in their usual construction order. -/
def mkInputsMissingFollowUp (bpwms current_smoker bpwms_cs pack_years bpwms_py age sex : ℚ) :
    List (String × ℚ) :=
  [("BpwMS", bpwms),
   ("Current Smoker", current_smoker),
   ("BpwMS * Current Smoker", bpwms_cs),
   ("Pack-Years", pack_years),
   ("BpwMS * Pack-Years", bpwms_py),
   ("Age at Baseline", age),
   ("Sex (Male)", sex)]

lemma logOdds_mkInputsMissingFollowUp (b cs bcs py bpy a s : ℚ) :
    calculateLogOdds (mkInputsMissingFollowUp b cs bcs py bpy a s) =
      some (linPred b cs bcs py bpy a s 0) := by
  have h : linPred b cs bcs py bpy a s 0 =
      (((((((0.488 : ℚ) + 4.8613 * b) + 16.8601 * cs) + -18.5033 * bcs)
        + 0.1531 * py) + -0.496 * bpy) + 0.0056 * a) + -2.2452 * s := by
    rw [linPred]
    ring
  rw [h]
  rfl

/-- Counterexample to claim C4: on a dict from which the required key
"Follow-up Interval" is absent, calculate_risk does not fail — the loop of
the source iterates over the keys that are present, so the call succeeds. -/
theorem C4_missing_key_no_failure :
    (calculate_risk (mkInputsMissingFollowUp 1 1 1 2.5 2.5 30 0)).isSome = true := by
  rw [calculate_risk, logOdds_mkInputsMissingFollowUp]
  rfl

lemma setKey_of_absent (l : List (String × ℚ)) (k : String) (v : ℚ)
    (h : dictGet k l = none) : setKey l k v = l ++ [(k, v)] := by
  induction l with
  | nil => simp [setKey]
  | cons p rest ih =>
    obtain ⟨k2, v2⟩ := p
    by_cases hk : k = k2
    · simp [dictGet, hk] at h
    · simp [dictGet, hk] at h
      simp [setKey, hk, ih h]

lemma sumTerms_append_zero (l : List (String × ℚ)) (k : String) (c : ℚ)
    (hk : dictGet k log_odds_coefficients = some c) :
    ∀ acc : ℚ, sumTerms (l ++ [(k, 0)]) acc = sumTerms l acc := by
  induction l with
  | nil =>
    intro acc
    simp [sumTerms, hk]
  | cons p rest ih =>
    intro acc
    obtain ⟨k2, v2⟩ := p
    simp only [List.cons_append, sumTerms]
    cases h2 : dictGet k2 log_odds_coefficients with
    | none => rfl
    | some c2 => exact ih (acc + c2 * v2)

lemma sumTerms_isSome (l : List (String × ℚ))
    (h : ∀ p ∈ l, (dictGet p.1 log_odds_coefficients).isSome = true) :
    ∀ acc : ℚ, (sumTerms l acc).isSome = true := by
  induction l with
  | nil => intro acc; rfl
  | cons p rest ih =>
    intro acc
    obtain ⟨k2, v2⟩ := p
    have h1 : (dictGet k2 log_odds_coefficients).isSome = true :=
      h (k2, v2) (List.mem_cons_self _ _)
    simp only [sumTerms]
    cases h2 : dictGet k2 log_odds_coefficients with
    | none =>
      rw [h2] at h1
      exact absurd h1 (by simp)
    | some c2 => exact ih (fun q hq => h q (List.mem_cons_of_mem _ hq)) (acc + c2 * v2)

lemma calculateLogOdds_setKey_absent (inputs : List (String × ℚ)) (k : String) (c : ℚ)
    (hk : dictGet k log_odds_coefficients = some c) (habs : dictGet k inputs = none) :
    calculateLogOdds (setKey inputs k 0) = calculateLogOdds inputs := by
  rw [setKey_of_absent inputs k 0 habs]
  simp only [calculateLogOdds]
  cases h0 : dictGet "Intercept" log_odds_coefficients with
  | none => rfl
  | some c0 => exact sumTerms_append_zero inputs k c hk c0

/-- Claim C4 as amended: for any input dict and any required covariate key k
(a key of the coefficient table) absent from it, calculate_risk does not
fail on account of the missing key — when every key that is present is a
known covariate the call succeeds — and the missing key is silently treated
as contributing 0: the result equals calculate_risk of the same dict with k
present at value 0. -/
theorem C4_missing_key_treated_as_zero (inputs : List (String × ℚ)) (k : String) (c : ℚ)
    (hk : dictGet k log_odds_coefficients = some c)
    (habs : dictGet k inputs = none)
    (hknown : ∀ p ∈ inputs, (dictGet p.1 log_odds_coefficients).isSome = true) :
    (calculate_risk inputs).isSome = true ∧
    calculate_risk inputs = calculate_risk (setKey inputs k 0) := by
  have hsome : (calculateLogOdds inputs).isSome = true := by
    simp only [calculateLogOdds]
    cases h0 : dictGet "Intercept" log_odds_coefficients with
    | none => exact absurd h0 (by decide)
    | some c0 => exact sumTerms_isSome inputs hknown c0
  constructor
  · rw [calculate_risk]
    cases h1 : calculateLogOdds inputs with
    | none =>
      rw [h1] at hsome
      simp at hsome
    | some L => rfl
  · rw [calculate_risk, calculate_risk, calculateLogOdds_setKey_absent inputs k c hk habs]

/-- Witness for the amended C4: the dict missing Follow-up Interval, with the
absent key Follow-up Interval itself. -/
theorem C4_missing_key_treated_as_zero_witness :
    (dictGet "Follow-up Interval" log_odds_coefficients = some 0.3507) ∧
    (dictGet "Follow-up Interval" (mkInputsMissingFollowUp 1 1 1 2.5 2.5 30 0) = none) ∧
    ((calculate_risk (mkInputsMissingFollowUp 1 1 1 2.5 2.5 30 0)).isSome = true ∧
      calculate_risk (mkInputsMissingFollowUp 1 1 1 2.5 2.5 30 0) =
        calculate_risk (setKey (mkInputsMissingFollowUp 1 1 1 2.5 2.5 30 0)
          "Follow-up Interval" 0)) :=
  ⟨by rfl, by decide,
    C4_missing_key_treated_as_zero (mkInputsMissingFollowUp 1 1 1 2.5 2.5 30 0)
      "Follow-up Interval" 0.3507 (by rfl) (by decide) (by decide)⟩

/-- Claim C3 evaluated on the code: calculate_smoking_cessation_benefit has
no error branch for a zero current risk; at the covariate set that drives
the floating-point current risk of the source to exactly 0 (age 20000), the
embedded call still returns a value rather than surfacing an
UndefinedReduction error. -/
theorem C3_no_undefined_reduction_check :
    (calculate_smoking_cessation_benefit (mkInputs 1 1 1 0 0 20000 0 1)).isSome = true := by
  rw [benefit_mkInputs]
  rfl

/-- Claim C8: on a covariate set where Current Smoker and
BpwMS * Current Smoker are already 0, the counterfactual dict equals the
input, so the no-smoking risk equals the current risk and the relative risk
reduction is 0; the current risk is nonzero, so the reduction is defined. -/
theorem C8_nonsmoker_idempotent (b cs bcs py bpy a s f : ℚ)
    (hcs : cs = 0) (hbcs : bcs = 0) :
    ∃ cur : ℝ, calculate_risk (mkInputs b cs bcs py bpy a s f) = some cur ∧ cur ≠ 0 ∧
      calculate_smoking_cessation_benefit (mkInputs b cs bcs py bpy a s f) =
        some (0, cur * 100, cur * 100) := by
  subst hcs
  subst hbcs
  refine ⟨_, risk_mkInputs b 0 0 py bpy a s f, (riskOf_pos _).ne', ?_⟩
  rw [benefit_mkInputs]
  simp

/-- Witness for C8 at a concrete non-smoking covariate set. -/
theorem C8_nonsmoker_idempotent_witness :
    ((0 : ℚ) = 0) ∧
    (∃ cur : ℝ, calculate_risk (mkInputs 1 0 0 2.5 2.5 30 0 1) = some cur ∧ cur ≠ 0 ∧
      calculate_smoking_cessation_benefit (mkInputs 1 0 0 2.5 2.5 30 0 1) =
        some (0, cur * 100, cur * 100)) :=
  ⟨rfl, C8_nonsmoker_idempotent 1 0 0 2.5 2.5 30 0 1 rfl rfl⟩

/-- Claim C9: for a subject with BpwMS = 1, Current Smoker = 1 and consistent
interaction terms, the net per-pack-year weight 0.1531 - 0.496 is negative,
so increasing Pack-Years lowers the log-odds of stability and the returned
risk of worsening is monotonically non-decreasing in Pack-Years. -/
theorem C9_packyears_monotone (py1 py2 a s f : ℚ) (r1 r2 : ℝ) (hpy : py1 ≤ py2)
    (h1 : calculate_risk (mkInputs 1 1 1 py1 py1 a s f) = some r1)
    (h2 : calculate_risk (mkInputs 1 1 1 py2 py2 a s f) = some r2) :
    r1 ≤ r2 := by
  rw [risk_mkInputs] at h1 h2
  have e1 := Option.some.inj h1
  have e2 := Option.some.inj h2
  rw [← e1, ← e2]
  apply riskOf_anti
  have hL : linPred 1 1 1 py2 py2 a s f ≤ linPred 1 1 1 py1 py1 a s f := by
    rw [linPred, linPred]
    linarith
  exact_mod_cast hL

/-- Witness for C9: Pack-Years 0 versus 1 with the other covariates 0. -/
theorem C9_packyears_monotone_witness :
    ((0 : ℚ) ≤ 1) ∧
    riskOf ((37061 / 10000 : ℚ) : ℝ) ≤ riskOf ((2102 / 625 : ℚ) : ℝ) :=
  ⟨by norm_num,
    C9_packyears_monotone 0 1 0 0 0 (riskOf ((37061 / 10000 : ℚ) : ℝ))
      (riskOf ((2102 / 625 : ℚ) : ℝ)) (by norm_num)
      (by rw [risk_mkInputs]; norm_num [linPred]) (by rw [risk_mkInputs]; norm_num [linPred])⟩

/-- Claim C10: for BpwMS = 1, Current Smoker = 1 and consistent interaction
term, zeroing smoking removes a net log-odds contribution of
16.8601 - 18.5033 = -1.6432 from the stability log-odds, which can only
lower the risk of worsening: the no-smoking risk is at most the current risk
and the relative risk reduction is nonnegative. -/
theorem C10_cessation_benefit_nonneg (py bpy a s f : ℚ) (rrr cur ns : ℝ)
    (h : calculate_smoking_cessation_benefit (mkInputs 1 1 1 py bpy a s f) =
      some (rrr, cur, ns)) :
    ns ≤ cur ∧ 0 ≤ rrr := by
  rw [benefit_mkInputs] at h
  simp only [Option.some.injEq, Prod.mk.injEq] at h
  obtain ⟨e1, e2, e3⟩ := h
  have hL : linPred 1 1 1 py bpy a s f ≤ linPred 1 0 0 py bpy a s f := by
    rw [linPred, linPred]
    linarith
  have hcn : riskOf ((linPred 1 0 0 py bpy a s f : ℚ) : ℝ) ≤
      riskOf ((linPred 1 1 1 py bpy a s f : ℚ) : ℝ) := riskOf_anti (by exact_mod_cast hL)
  constructor
  · rw [← e2, ← e3]
    have := mul_le_mul_of_nonneg_right hcn (by norm_num : (0 : ℝ) ≤ 100)
    linarith
  · rw [← e1]
    have hpos := riskOf_pos ((linPred 1 1 1 py bpy a s f : ℚ) : ℝ)
    have hdiv : 0 ≤ (riskOf ((linPred 1 1 1 py bpy a s f : ℚ) : ℝ)
        - riskOf ((linPred 1 0 0 py bpy a s f : ℚ) : ℝ))
        / riskOf ((linPred 1 1 1 py bpy a s f : ℚ) : ℝ) :=
      div_nonneg (by linarith) hpos.le
    linarith

/-- Witness for C10 at a concrete smoking covariate set. -/
theorem C10_cessation_benefit_nonneg_witness :
    calculate_smoking_cessation_benefit (mkInputs 1 1 1 0 0 0 0 0) =
      some (((riskOf ((37061 / 10000 : ℚ) : ℝ) - riskOf ((53493 / 10000 : ℚ) : ℝ))
              / riskOf ((37061 / 10000 : ℚ) : ℝ)) * 100,
            riskOf ((37061 / 10000 : ℚ) : ℝ) * 100,
            riskOf ((53493 / 10000 : ℚ) : ℝ) * 100) ∧
    (riskOf ((53493 / 10000 : ℚ) : ℝ) * 100 ≤ riskOf ((37061 / 10000 : ℚ) : ℝ) * 100 ∧
      0 ≤ ((riskOf ((37061 / 10000 : ℚ) : ℝ) - riskOf ((53493 / 10000 : ℚ) : ℝ))
            / riskOf ((37061 / 10000 : ℚ) : ℝ)) * 100) :=
  ⟨by rw [benefit_mkInputs]; norm_num [linPred],
    C10_cessation_benefit_nonneg 0 0 0 0 0 _ _ _
      (by rw [benefit_mkInputs]; norm_num [linPred])⟩

/-- Witness for C6 at the concrete scenario of the spec. -/
theorem C6_risk_in_unit_interval_witness :
    ((1 : ℚ) = 0 ∨ (1 : ℚ) = 1) ∧ ((0 : ℚ) ≤ 2.5) ∧ ((0 : ℚ) ≤ 30) ∧
    (∃ r : ℝ, calculate_risk (mkInputs 1 1 1 2.5 2.5 30 0 1) = some r ∧ 0 ≤ r ∧ r ≤ 1) :=
  ⟨Or.inr rfl, by norm_num, by norm_num,
    C6_risk_in_unit_interval 1 1 1 2.5 2.5 30 0 1 (Or.inr rfl) (Or.inr rfl) (Or.inr rfl)
      (by norm_num) (by norm_num) (by norm_num) (Or.inl rfl) (by norm_num)⟩
